import Mathlib

/-!
# simplepb: view-change handlers of the primary-backup server

A shallow embedding of `lab2-code/simplepb/server.go`.

* Go `int` values (views, status codes, indexes) are modelled by `Int`; the
  handlers only compare and copy them and `GetPrimary` takes a remainder, so
  no arithmetic of the code can overflow; a sum formed by a caller is `addInt`.
* A log entry is an `interface{}`: `Option α`, with `none` for the nil
  interface value and `some c` for a command `c`.
* A handler that mutates `*srv` and fills `*reply` becomes a function that
  returns the new server state and the new reply.
* The mutex, the channel `prepChan` and the wait group `prepWait` carry no
  data read by the handlers and are left out of the state.
-/

namespace simplepb

/-! ## Data model -/

/-- Status code `NORMAL = iota`. -/
def NORMAL : Int := 0

/-- Status code `VIEWCHANGE`. -/
def VIEWCHANGE : Int := 1

/-- Status code `RECOVERING`. -/
def RECOVERING : Int := 2

/-- State of a replica server, the data fields of the Go struct `PBServer`. -/
structure PBServer (α : Type) where
  peers : List String
  me : Int
  currentView : Int
  status : Int
  lastNormalView : Int
  log : List (Option α)
  commitIndex : Int
deriving DecidableEq, Repr

/-- Arguments of the Prepare RPC. -/
structure PrepareArgs (α : Type) where
  View : Int
  PrimaryCommit : Int
  Index : Int
  Entry : Option α
deriving DecidableEq, Repr

/-- Reply of the Prepare RPC. -/
structure PrepareReply where
  View : Int
  Success : Bool
deriving DecidableEq, Repr

/-- Arguments of the ViewChange RPC. -/
structure ViewChangeArgs where
  View : Int
deriving DecidableEq, Repr

/-- Reply of the ViewChange RPC. -/
structure ViewChangeReply (α : Type) where
  LastNormalView : Int
  Log : List (Option α)
  Success : Bool
deriving DecidableEq, Repr

/-- Arguments of the StartView RPC. -/
structure StartViewArgs (α : Type) where
  View : Int
  Log : List (Option α)
deriving DecidableEq, Repr

/-- The zero value of `ViewChangeReply`, what the RPC library hands to a handler. -/
def ViewChangeReply.zero {α : Type} : ViewChangeReply α :=
  { LastNormalView := 0, Log := [], Success := false }

/-! ## Operations -/

/-- `Make`: the initial state; the log is the empty slice with the nil
interface value `v` appended, and `commitIndex` keeps its zero value. -/
def Make {α : Type} (peers : List String) (me : Int) (startingView : Int) : PBServer α :=
  { peers := peers
    me := me
    currentView := startingView
    status := NORMAL
    lastNormalView := startingView
    log := [] ++ [none]
    commitIndex := 0 }

/-- One iteration of the `range successReplies` loop of `determineNewViewLog`,
on the pair `(newViewLog, minView)`. -/
def determineNewViewLog.body {α : Type} (acc : List (Option α) × Int)
    (v : ViewChangeReply α) : List (Option α) × Int :=
  if v.LastNormalView < acc.2 then (v.Log, v.LastNormalView) else acc

/-- `determineNewViewLog`: the named result `ok` is never assigned, so it is
returned with its zero value `false`. -/
def determineNewViewLog {α : Type} (srv : PBServer α)
    (successReplies : List (ViewChangeReply α)) : Bool × List (Option α) :=
  let ok : Bool := false
  let final := successReplies.foldl determineNewViewLog.body (srv.log, srv.lastNormalView)
  (ok, final.1)

/-- `ViewChange`, the RPC handler: returns the new server state and the reply
as left in `*reply`. -/
def ViewChange {α : Type} (srv : PBServer α) (args : ViewChangeArgs)
    (reply : ViewChangeReply α) : PBServer α × ViewChangeReply α :=
  if args.View > srv.currentView then
    let srv1 := { srv with currentView := args.View }
    let srv2 := { srv1 with status := VIEWCHANGE }
    let reply1 := { reply with Success := true }
    let reply2 := { reply1 with Log := srv2.log }
    let reply3 := { reply2 with LastNormalView := srv2.lastNormalView }
    (srv2, reply3)
  else
    (srv, { reply with Success := false })

/-- `StartView`, the RPC handler; `StartViewReply` has no field. -/
def StartView {α : Type} (srv : PBServer α) (args : StartViewArgs α) : PBServer α :=
  if srv.currentView < args.View then
    let srv1 := { srv with currentView := args.View }
    let srv2 := { srv1 with log := args.Log }
    let srv3 := { srv2 with status := NORMAL }
    { srv3 with lastNormalView := srv3.currentView }
  else
    srv

/-! ## Requests and runs -/

/-- A request received by a replica: a ViewChange or a StartView RPC. -/
inductive Request (α : Type) where
  | viewChange (args : ViewChangeArgs)
  | startView (args : StartViewArgs α)
deriving DecidableEq, Repr

/-- The server state after one request; a ViewChange handler is given a
zero-valued reply. -/
def handle {α : Type} (srv : PBServer α) : Request α → PBServer α
  | .viewChange args => (ViewChange srv args ViewChangeReply.zero).1
  | .startView args => StartView srv args

/-- The server state after a finite sequence of requests, in order. -/
def run {α : Type} (srv : PBServer α) (reqs : List (Request α)) : PBServer α :=
  reqs.foldl handle srv

/-- The entry of a log at a Go `int` index, `none` when the index is out of range. -/
def entryAt {α : Type} (log : List (Option α)) (i : Int) : Option (Option α) :=
  if i < 0 then none else log[i.toNat]?

/-- The invariant `0 ≤ commitIndex < len(log)`. -/
def CommitInv {α : Type} (srv : PBServer α) : Prop :=
  0 ≤ srv.commitIndex ∧ srv.commitIndex < (srv.log.length : Int)

instance {α : Type} (srv : PBServer α) : Decidable (CommitInv srv) := by
  unfold CommitInv; infer_instance

/-- The candidates of a view change: the server itself, then every respondent,
each as `(lastNormalView, log)`. -/
def candidates {α : Type} (srv : PBServer α)
    (successReplies : List (ViewChangeReply α)) : List (Int × List (Option α)) :=
  (srv.lastNormalView, srv.log) :: successReplies.map (fun r => (r.LastNormalView, r.Log))

/-- A log `l` belongs to a candidate whose lastNormalView is the greatest
among all candidates. -/
def IsLogOfGreatest {α : Type} (cs : List (Int × List (Option α)))
    (l : List (Option α)) : Prop :=
  ∃ c ∈ cs, c.2 = l ∧ ∀ d ∈ cs, d.1 ≤ c.1

/-- A log `l` belongs to a candidate whose lastNormalView is the least
among all candidates. -/
def IsLogOfLeast {α : Type} (cs : List (Int × List (Option α)))
    (l : List (Option α)) : Prop :=
  ∃ c ∈ cs, c.2 = l ∧ ∀ d ∈ cs, c.1 ≤ d.1

/-- The quorum threshold `floor(n/2) + 1` for `n` peers. -/
def quorum (n : Nat) : Nat := n / 2 + 1

/-- Modelled from the spec: the backup-side `Prepare` RPC handler. `server.go`
declares its argument and reply types and calls it by name in `sendPrepare`
("PBServer.Prepare"), but holds no body for it. The spec: it rejects
(reply.Success = false, reply.View = own view) if `args.View < currentView`
(stale primary), or if status is not NORMAL, or if `args.Index` does not equal
the current log length; this last case is an ordering violation, on which the
backup enters RECOVERING. On acceptance it appends the entry at the given
index, advances its commitIndex to `min(args.PrimaryCommit, len(log)-1)` and
replies Success = true with its own view; commitIndex never decreases, so a
target below the current commitIndex leaves it as it is. -/
def Prepare {α : Type} (srv : PBServer α) (args : PrepareArgs α) :
    PBServer α × PrepareReply :=
  if args.View < srv.currentView then
    (srv, { View := srv.currentView, Success := false })
  else if srv.status ≠ NORMAL then
    (srv, { View := srv.currentView, Success := false })
  else if args.Index ≠ (srv.log.length : Int) then
    ({ srv with status := RECOVERING }, { View := srv.currentView, Success := false })
  else
    let srv1 := { srv with log := srv.log ++ [args.Entry] }
    let target := min args.PrimaryCommit ((srv1.log.length : Int) - 1)
    let srv2 := { srv1 with commitIndex := max srv1.commitIndex target }
    (srv2, { View := srv2.currentView, Success := true })

/-! ## Go integers -/

/-- The largest value of a 64-bit Go `int`. -/
def MaxInt : Int := 2 ^ 63 - 1

/-- The sum `a + b` of two Go `int` values: wrapped into 64 bits, two's
complement. -/
def addInt (a b : Int) : Int := (a + b + 2 ^ 63) % 2 ^ 64 - 2 ^ 63

/-! ## Queries of the tester -/

/-- `GetPrimary`: `view % nservers` with the remainder of Go, whose sign is
that of `view`; `none` stands for the run-time panic of a division by zero. -/
def GetPrimary (view : Int) (nservers : Int) : Option Int :=
  if nservers = 0 then none else some (Int.tmod view nservers)

/-- `IsCommitted`: the server state after the call and the result `committed`. -/
def IsCommitted {α : Type} (srv : PBServer α) (index : Int) : PBServer α × Bool :=
  if srv.commitIndex ≥ index then (srv, true) else (srv, false)

/-- `GetEntryAtIndex`: the server state after the call, `ok` and `command`;
`none` stands for the run-time panic of `srv.log[index]` with an index out of
range. In the second return `command` still holds its zero value, nil. -/
def GetEntryAtIndex {α : Type} (srv : PBServer α) (index : Int) :
    Option (PBServer α × Bool × Option α) :=
  if (srv.log.length : Int) > index then
    match entryAt srv.log index with
    | some command => some (srv, true, command)
    | none => none
  else
    some (srv, false, none)

/-- `determineNewViewLog` as a method call on `*srv`: the server state after
the call, which assigns to no field of `srv`, and the two results. -/
def determineNewViewLog.call {α : Type} (srv : PBServer α)
    (successReplies : List (ViewChangeReply α)) :
    PBServer α × Bool × List (Option α) :=
  (srv, determineNewViewLog srv successReplies)

/-! ## Concrete states used as examples -/

/-- A replica of a three-server cluster, last NORMAL in view 2, holding one
command after the sentinel, now in a view change for view 3. -/
def exampleServer : PBServer Nat :=
  { peers := ["s0", "s1", "s2"]
    me := 0
    currentView := 3
    status := VIEWCHANGE
    lastNormalView := 2
    log := [none, some 7]
    commitIndex := 1 }

/-- A successful ViewChange reply from a replica last NORMAL in view 1 that
holds the sentinel only. -/
def staleReply : ViewChangeReply Nat :=
  { LastNormalView := 1, Log := [none], Success := true }

/-- A successful ViewChange reply from a replica last NORMAL in view 2. -/
def freshReply : ViewChangeReply Nat :=
  { LastNormalView := 2, Log := [none, some 7], Success := true }

/-- A freshly made replica of a three-server cluster, starting in view 0. -/
def freshServer : PBServer Nat := Make ["s0", "s1", "s2"] 1 0

/-- A backup of a three-server cluster, NORMAL in view 2, holding one command
after the sentinel, committed. -/
def normalServer : PBServer Nat :=
  { peers := ["s0", "s1", "s2"]
    me := 1
    currentView := 2
    status := NORMAL
    lastNormalView := 2
    log := [none, some 7]
    commitIndex := 1 }

end simplepb

/-!
# registration: the local user ledger

A shallow embedding of `registration/registration.go`.

* A Go map is modelled by its lookup function into `Option`; the maps of a
  ledger are those allocated by `NewLocalLedger`, so a write never meets a
  nil map.
* An `error` is `Option String`: `none` for nil, `some msg` for `errors.New(msg)`.
* `uidCounter++` wraps around like a 64-bit Go `int`.
* The calls to `log.Printf` have no effect on the ledger and are left out.
-/

namespace registration

/-- Modelled from the spec: the record of a user. Its declaration is not in
`registration.go`; `AddNewUser` builds it with the two fields `Name` and `UID`. -/
structure User where
  Name : String
  UID : Int
deriving DecidableEq, Repr

/-- A session token and the instant of its creation (`time.Time` as a number). -/
structure Token where
  creationDate : Int
  token : String
deriving DecidableEq, Repr

/-- The Go struct `LocalUserLedger`. -/
structure LocalUserLedger where
  userSet : Int → Option User
  userID : String → Option Int
  pwdMap : Int → Option String
  tokenMap : Int → Option Token
  uidCounter : Int

/-- What `allocateNewToken` takes from its environment: the bytes written by
`rand.Read` (byte `i` of the buffer is `randByte i % 256`), whether
`rand.Read` returned an error, and the instant `time.Now()`. -/
structure TokenSource where
  randByte : Nat → Nat
  randErr : Bool
  now : Int

/-- The assignment `m[k] = v` on a map. -/
def mapSet {K V : Type} [DecidableEq K] (m : K → Option V) (k : K) (v : V) :
    K → Option V :=
  fun k1 => if k1 = k then some v else m k1

/-- The value of a Go `int` after arithmetic: wrapped into 64 bits, two's complement. -/
def wrapInt (x : Int) : Int := (x + 2 ^ 63) % 2 ^ 64 - 2 ^ 63

/-- A hexadecimal digit of `encoding/hex`, lower case. -/
def hexDigit (n : Nat) : Char := "0123456789abcdef".toList.getD n '0'

/-- `hex.EncodeToString`: two digits per byte, high half first. -/
def EncodeToString (src : List Nat) : String :=
  String.mk (src.flatMap (fun b => [hexDigit (b % 256 / 16), hexDigit (b % 16)]))

/-- `NewLocalLedger`: four empty maps and the counter at 0. -/
def NewLocalLedger : LocalUserLedger :=
  { userSet := fun _ => none
    userID := fun _ => none
    pwdMap := fun _ => none
    tokenMap := fun _ => none
    uidCounter := 0 }

/-- `AddNewUser`: the ledger after the call and the returned error, always nil. -/
def AddNewUser (lul : LocalUserLedger) (name : String) (pwd : String) :
    LocalUserLedger × Option String :=
  let lul1 := { lul with
    userSet := mapSet lul.userSet lul.uidCounter { Name := name, UID := lul.uidCounter } }
  let lul2 := { lul1 with userID := mapSet lul1.userID name lul1.uidCounter }
  let lul3 := { lul2 with pwdMap := mapSet lul2.pwdMap lul2.uidCounter pwd }
  let lul4 := { lul3 with uidCounter := wrapInt (lul3.uidCounter + 1) }
  (lul4, none)

/-- `allocateNewToken`: the ledger after the call and the token; `none`
stands for the `panic(err)` taken when `rand.Read` returns an error. -/
def allocateNewToken (lul : LocalUserLedger) (id : Int) (env : TokenSource) :
    Option (LocalUserLedger × String) :=
  let bitString := (List.range 256).map (fun i => env.randByte i % 256)
  if env.randErr then none
  else
    let token := EncodeToString bitString
    some ({ lul with
      tokenMap := mapSet lul.tokenMap id { token := token, creationDate := env.now } },
      token)

/-- `LogIn`: the ledger after the call, the error and the token; a lookup
`lul.pwdMap[id]` of a missing key yields the empty string. `none` stands for
the panic of `allocateNewToken`. -/
def LogIn (lul : LocalUserLedger) (uname : String) (pwd : String) (env : TokenSource) :
    Option (LocalUserLedger × Option String × String) :=
  match lul.userID uname with
  | none => some (lul, some ("No record of " ++ uname ++ " exists"), "")
  | some id =>
    if (lul.pwdMap id).getD "" ≠ pwd then
      some (lul, some ("Bad password for " ++ uname), "")
    else
      match allocateNewToken lul id env with
      | none => none
      | some (lul1, token) => some (lul1, none, token)

/-- The ledger has a record of `uname` and the password stored for that user
differs from `pwd`. -/
def BadPassword (lul : LocalUserLedger) (uname : String) (pwd : String) : Prop :=
  ∃ id, lul.userID uname = some id ∧ (lul.pwdMap id).getD "" ≠ pwd

/-- A source of tokens whose `rand.Read` succeeds and writes the bytes 0, 1, 2, ... -/
def countingSource : TokenSource :=
  { randByte := fun i => i, randErr := false, now := 1000 }

end registration

namespace simplepb

/-! ## Lemmas on the handlers -/

section handlers

variable {α : Type}

theorem ViewChange_accept (srv : PBServer α) (args : ViewChangeArgs)
    (reply : ViewChangeReply α) (h : args.View > srv.currentView) :
    ViewChange srv args reply =
      ({ srv with currentView := args.View, status := VIEWCHANGE },
       { LastNormalView := srv.lastNormalView, Log := srv.log, Success := true }) := by
  simp [ViewChange, h]

theorem ViewChange_reject (srv : PBServer α) (args : ViewChangeArgs)
    (reply : ViewChangeReply α) (h : args.View ≤ srv.currentView) :
    ViewChange srv args reply = (srv, { reply with Success := false }) := by
  simp [ViewChange, not_lt.mpr h]

theorem StartView_accept (srv : PBServer α) (args : StartViewArgs α)
    (h : srv.currentView < args.View) :
    StartView srv args =
      { srv with currentView := args.View, log := args.Log, status := NORMAL,
                 lastNormalView := args.View } := by
  simp [StartView, h]

theorem StartView_reject (srv : PBServer α) (args : StartViewArgs α)
    (h : args.View ≤ srv.currentView) : StartView srv args = srv := by
  simp [StartView, not_lt.mpr h]

theorem ViewChange_currentView_ge (srv : PBServer α) (args : ViewChangeArgs)
    (reply : ViewChangeReply α) :
    args.View ≤ (ViewChange srv args reply).1.currentView := by
  by_cases h : args.View > srv.currentView
  · rw [ViewChange_accept srv args reply h]
  · rw [ViewChange_reject srv args reply (not_lt.mp h)]
    exact not_lt.mp h

/-- After a ViewChange for a view above the current one, a StartView for that
same view is refused and changes nothing. -/
theorem StartView_after_ViewChange_same_view (srv : PBServer α) (v : Int)
    (reply : ViewChangeReply α) (L : List (Option α)) :
    StartView (ViewChange srv { View := v } reply).1 { View := v, Log := L } =
      (ViewChange srv { View := v } reply).1 :=
  StartView_reject _ _ (ViewChange_currentView_ge srv { View := v } reply)

/-- The loop of `determineNewViewLog` keeps, as `(minView, newViewLog)`, a
candidate seen so far whose lastNormalView is the least. -/
theorem determineNewViewLog_loop_least (rs : List (ViewChangeReply α))
    (seen : List (Int × List (Option α))) (acc : List (Option α) × Int)
    (hmem : (acc.2, acc.1) ∈ seen) (hle : ∀ d ∈ seen, acc.2 ≤ d.1) :
    ((rs.foldl determineNewViewLog.body acc).2,
        (rs.foldl determineNewViewLog.body acc).1) ∈
        seen ++ rs.map (fun r => (r.LastNormalView, r.Log)) ∧
      ∀ d ∈ seen ++ rs.map (fun r => (r.LastNormalView, r.Log)),
        (rs.foldl determineNewViewLog.body acc).2 ≤ d.1 := by
  induction rs generalizing seen acc with
  | nil =>
    simp only [List.foldl_nil, List.map_nil, List.append_nil]
    exact ⟨hmem, hle⟩
  | cons r rs ih =>
    have key := ih (seen ++ [(r.LastNormalView, r.Log)]) (determineNewViewLog.body acc r)
      (by
        unfold determineNewViewLog.body
        split
        · simp
        · simp [hmem])
      (by
        intro d hd
        unfold determineNewViewLog.body
        rcases List.mem_append.mp hd with hd | hd
        · split
          · rename_i hlt
            exact le_of_lt (lt_of_lt_of_le hlt (hle d hd))
          · exact hle d hd
        · simp only [List.mem_singleton] at hd
          subst hd
          split
          · exact le_refl _
          · rename_i hlt
            exact not_lt.mp hlt)
    simp only [List.foldl_cons, List.map_cons, List.append_assoc, List.singleton_append] at key ⊢
    exact key

/-- What `determineNewViewLog` does select: the log of a candidate whose
lastNormalView is the least among the respondents and the server itself. -/
theorem determineNewViewLog_selects_least (srv : PBServer α)
    (rs : List (ViewChangeReply α)) :
    IsLogOfLeast (candidates srv rs) (determineNewViewLog srv rs).2 := by
  have key := determineNewViewLog_loop_least rs [(srv.lastNormalView, srv.log)]
    (srv.log, srv.lastNormalView) (by simp) (by simp)
  refine ⟨_, key.1, rfl, ?_⟩
  intro d hd
  exact key.2 d hd

/-- The result `ok` of `determineNewViewLog` is `false` on every input. -/
theorem determineNewViewLog_ok_false (srv : PBServer α)
    (rs : List (ViewChangeReply α)) : (determineNewViewLog srv rs).1 = false := rfl

/-- The server state left by `ViewChange` does not depend on the reply object
it is handed. -/
theorem ViewChange_state_indep_reply (srv : PBServer α) (args : ViewChangeArgs)
    (r1 r2 : ViewChangeReply α) :
    (ViewChange srv args r1).1 = (ViewChange srv args r2).1 := by
  by_cases h : args.View > srv.currentView
  · rw [ViewChange_accept srv args r1 h, ViewChange_accept srv args r2 h]
  · rw [ViewChange_reject srv args r1 (not_lt.mp h),
      ViewChange_reject srv args r2 (not_lt.mp h)]

theorem ViewChange_currentView_mono (srv : PBServer α) (args : ViewChangeArgs)
    (reply : ViewChangeReply α) :
    srv.currentView ≤ (ViewChange srv args reply).1.currentView := by
  by_cases h : args.View > srv.currentView
  · rw [ViewChange_accept srv args reply h]
    exact le_of_lt h
  · rw [ViewChange_reject srv args reply (not_lt.mp h)]

theorem StartView_currentView_mono (srv : PBServer α) (args : StartViewArgs α) :
    srv.currentView ≤ (StartView srv args).currentView := by
  by_cases h : srv.currentView < args.View
  · rw [StartView_accept srv args h]
    exact le_of_lt h
  · rw [StartView_reject srv args (not_lt.mp h)]

theorem handle_currentView_mono (srv : PBServer α) (req : Request α) :
    srv.currentView ≤ (handle srv req).currentView := by
  cases req with
  | viewChange args => exact ViewChange_currentView_mono srv args _
  | startView args => exact StartView_currentView_mono srv args

theorem run_nil (srv : PBServer α) : run srv [] = srv := rfl

theorem run_cons (srv : PBServer α) (req : Request α) (reqs : List (Request α)) :
    run srv (req :: reqs) = run (handle srv req) reqs := rfl

theorem run_append (srv : PBServer α) (xs ys : List (Request α)) :
    run srv (xs ++ ys) = run (run srv xs) ys := by
  simp [run, List.foldl_append]

theorem run_currentView_mono (srv : PBServer α) (reqs : List (Request α)) :
    srv.currentView ≤ (run srv reqs).currentView := by
  induction reqs generalizing srv with
  | nil => exact le_refl _
  | cons req reqs ih =>
    rw [run_cons]
    exact le_trans (handle_currentView_mono srv req) (ih (handle srv req))

theorem ViewChange_log (srv : PBServer α) (args : ViewChangeArgs)
    (reply : ViewChangeReply α) : (ViewChange srv args reply).1.log = srv.log := by
  by_cases h : args.View > srv.currentView
  · rw [ViewChange_accept srv args reply h]
  · rw [ViewChange_reject srv args reply (not_lt.mp h)]

theorem ViewChange_commitIndex (srv : PBServer α) (args : ViewChangeArgs)
    (reply : ViewChangeReply α) :
    (ViewChange srv args reply).1.commitIndex = srv.commitIndex := by
  by_cases h : args.View > srv.currentView
  · rw [ViewChange_accept srv args reply h]
  · rw [ViewChange_reject srv args reply (not_lt.mp h)]

theorem StartView_commitIndex (srv : PBServer α) (args : StartViewArgs α) :
    (StartView srv args).commitIndex = srv.commitIndex := by
  by_cases h : srv.currentView < args.View
  · rw [StartView_accept srv args h]
  · rw [StartView_reject srv args (not_lt.mp h)]

theorem handle_commitIndex (srv : PBServer α) (req : Request α) :
    (handle srv req).commitIndex = srv.commitIndex := by
  cases req with
  | viewChange args => exact ViewChange_commitIndex srv args _
  | startView args => exact StartView_commitIndex srv args

end handlers

/-! ## Claims -/

/-- C1 (code evaluated at a failing input): the server was last NORMAL in
view 2 and holds the log `[nil, 7]`; the only respondent was last NORMAL in
view 1 and holds `[nil]`. `determineNewViewLog` returns the respondent's log
`[nil]`, which is not the log of a candidate with the greatest lastNormalView. -/
theorem C1_determineNewViewLog_picks_stale_log :
    (determineNewViewLog exampleServer [staleReply]).2 = [none] ∧
      ¬ IsLogOfGreatest (candidates exampleServer [staleReply])
          (determineNewViewLog exampleServer [staleReply]).2 := by
  refine ⟨by decide, ?_⟩
  unfold IsLogOfGreatest
  decide

/-- C2 (code evaluated at a failing input): a fresh replica in view 0 handles
ViewChange for view 1 and then StartView for view 1 with the log `[nil, 7]`.
The StartView is refused: the status stays VIEWCHANGE, lastNormalView stays 0
and the log stays `[nil]`. -/
theorem C2_StartView_refused_after_ViewChange :
    (StartView (ViewChange freshServer { View := 1 } ViewChangeReply.zero).1
        { View := 1, Log := [none, some 7] }) =
      { peers := ["s0", "s1", "s2"], me := 1, currentView := 1, status := VIEWCHANGE,
        lastNormalView := 0, log := [none], commitIndex := 0 } := by
  decide

/-- C3: on a ViewChange request with `args.View > currentView` the handler
sets currentView to `args.View` and status to VIEWCHANGE, replies
Success = true with the whole log and the lastNormalView of the server, and
leaves log, lastNormalView and commitIndex of the server unchanged. -/
theorem C3_ViewChange_adopts_higher_view {α : Type} (srv : PBServer α)
    (args : ViewChangeArgs) (reply : ViewChangeReply α)
    (h : args.View > srv.currentView) :
    (ViewChange srv args reply).1.currentView = args.View ∧
      (ViewChange srv args reply).1.status = VIEWCHANGE ∧
      (ViewChange srv args reply).2.Success = true ∧
      (ViewChange srv args reply).2.Log = srv.log ∧
      (ViewChange srv args reply).2.LastNormalView = srv.lastNormalView ∧
      (ViewChange srv args reply).1.log = srv.log ∧
      (ViewChange srv args reply).1.lastNormalView = srv.lastNormalView ∧
      (ViewChange srv args reply).1.commitIndex = srv.commitIndex := by
  rw [ViewChange_accept srv args reply h]
  simp

/-- C3 at a concrete input: a replica in view 3 receives ViewChange for view 4. -/
theorem C3_ViewChange_adopts_higher_view_witness :
    (4 : Int) > exampleServer.currentView ∧
      (ViewChange exampleServer { View := 4 } staleReply).1.currentView = 4 ∧
      (ViewChange exampleServer { View := 4 } staleReply).1.status = VIEWCHANGE ∧
      (ViewChange exampleServer { View := 4 } staleReply).2.Success = true ∧
      (ViewChange exampleServer { View := 4 } staleReply).2.Log = [none, some 7] ∧
      (ViewChange exampleServer { View := 4 } staleReply).2.LastNormalView = 2 ∧
      (ViewChange exampleServer { View := 4 } staleReply).1.log = [none, some 7] ∧
      (ViewChange exampleServer { View := 4 } staleReply).1.lastNormalView = 2 ∧
      (ViewChange exampleServer { View := 4 } staleReply).1.commitIndex = 1 :=
  ⟨by decide,
    C3_ViewChange_adopts_higher_view exampleServer { View := 4 } staleReply (by decide)⟩

/-- C4: on a ViewChange request with `args.View ≤ currentView` the handler
replies Success = false (and writes nothing else to the reply) and leaves the
whole server state unchanged; and after any first ViewChange for a view, a
second ViewChange for the same view is such a rejected no-op. -/
theorem C4_ViewChange_rejects_stale_view {α : Type} (srv : PBServer α)
    (args : ViewChangeArgs) (reply : ViewChangeReply α)
    (h : args.View ≤ srv.currentView) :
    (ViewChange srv args reply).2.Success = false ∧
      (ViewChange srv args reply).2 = { reply with Success := false } ∧
      (ViewChange srv args reply).1 = srv ∧
      ∀ (srv0 : PBServer α) (v : ViewChangeArgs) (reply1 reply2 : ViewChangeReply α),
        (ViewChange (ViewChange srv0 v reply1).1 v reply2).2.Success = false ∧
          (ViewChange (ViewChange srv0 v reply1).1 v reply2).1 =
            (ViewChange srv0 v reply1).1 := by
  refine ⟨?_, ?_, ?_, ?_⟩
  · rw [ViewChange_reject srv args reply h]
  · rw [ViewChange_reject srv args reply h]
  · rw [ViewChange_reject srv args reply h]
  · intro srv0 v reply1 reply2
    rw [ViewChange_reject _ v reply2 (ViewChange_currentView_ge srv0 v reply1)]
    exact ⟨rfl, rfl⟩

/-- C4 at a concrete input: a replica in view 3 receives ViewChange for view 3. -/
theorem C4_ViewChange_rejects_stale_view_witness :
    (3 : Int) ≤ exampleServer.currentView ∧
      (ViewChange exampleServer { View := 3 } staleReply).2.Success = false ∧
      (ViewChange exampleServer { View := 3 } staleReply).1 = exampleServer :=
  have key := C4_ViewChange_rejects_stale_view exampleServer { View := 3 } staleReply
    (by decide)
  ⟨by decide, key.1, key.2.2.1⟩

/-- C5: on a StartView request with `args.View > currentView` the handler sets
currentView to `args.View`, replaces the log with `args.Log`, and sets status
to NORMAL and lastNormalView to `args.View`. -/
theorem C5_StartView_installs_new_view {α : Type} (srv : PBServer α)
    (args : StartViewArgs α) (h : args.View > srv.currentView) :
    (StartView srv args).currentView = args.View ∧
      (StartView srv args).log = args.Log ∧
      (StartView srv args).status = NORMAL ∧
      (StartView srv args).lastNormalView = args.View := by
  rw [StartView_accept srv args h]
  simp

/-- C5 at a concrete input: a replica in view 3 receives StartView for view 4. -/
theorem C5_StartView_installs_new_view_witness :
    (4 : Int) > exampleServer.currentView ∧
      (StartView exampleServer { View := 4, Log := [none, some 7, some 8] }).currentView = 4 ∧
      (StartView exampleServer { View := 4, Log := [none, some 7, some 8] }).log =
        [none, some 7, some 8] ∧
      (StartView exampleServer { View := 4, Log := [none, some 7, some 8] }).status = NORMAL ∧
      (StartView exampleServer { View := 4, Log := [none, some 7, some 8] }).lastNormalView = 4 :=
  ⟨by decide,
    C5_StartView_installs_new_view exampleServer
      { View := 4, Log := [none, some 7, some 8] } (by decide)⟩

/-- C6: view monotonicity. For every server state and every finite sequence
of ViewChange and StartView requests, the currentView after each request of
the sequence is at least the currentView before that request, and so the
currentView at the end is at least the one at the start. -/
theorem C6_currentView_never_decreases {α : Type} (srv : PBServer α)
    (before : List (Request α)) (req : Request α) (after : List (Request α)) :
    (run srv before).currentView ≤ (run srv (before ++ [req])).currentView ∧
      srv.currentView ≤ (run srv (before ++ req :: after)).currentView := by
  refine ⟨?_, run_currentView_mono srv _⟩
  rw [run_append, run_cons, run_nil]
  exact handle_currentView_mono _ req

/-- C7, as stated, fails: a fresh replica (commitIndex 0, log `[nil]`)
satisfies `0 ≤ commitIndex < len(log)`, and after StartView for view 1 with
an empty log it holds an empty log with commitIndex 0, so the invariant is
broken. -/
theorem C7_StartView_empty_log_breaks_CommitInv :
    CommitInv freshServer ∧
      ¬ CommitInv (handle freshServer (Request.startView { View := 1, Log := [] })) := by
  decide

/-- C7, amended: the invariant `0 ≤ commitIndex < len(log)` holds in the state
produced by Make, and it is preserved by every ViewChange request and by
every StartView request that is refused or whose log is longer than the
local commitIndex. -/
theorem C7_CommitInv_kept_by_long_enough_log {α : Type} (peers : List String)
    (me startingView : Int) (srv : PBServer α) (req : Request α)
    (hinv : CommitInv srv)
    (hlen : ∀ args, req = Request.startView args → srv.currentView < args.View →
      srv.commitIndex < (args.Log.length : Int)) :
    CommitInv (Make peers me startingView : PBServer α) ∧ CommitInv (handle srv req) := by
  refine ⟨by simp [CommitInv, Make], ?_⟩
  cases req with
  | viewChange args =>
    unfold CommitInv at hinv ⊢
    simp only [handle]
    rw [ViewChange_commitIndex, ViewChange_log]
    exact hinv
  | startView args =>
    by_cases h : srv.currentView < args.View
    · have hl := hlen args rfl h
      unfold CommitInv at hinv ⊢
      simp only [handle]
      rw [StartView_accept srv args h]
      exact ⟨hinv.1, hl⟩
    · simp only [handle]
      rw [StartView_reject srv args (not_lt.mp h)]
      exact hinv

/-- C7 amended, at a concrete input: a replica in view 3 with commitIndex 1
receives StartView for view 4 with a log of length 3. -/
theorem C7_CommitInv_kept_by_long_enough_log_witness :
    CommitInv exampleServer ∧
      CommitInv (Make ["s0", "s1", "s2"] 1 0 : PBServer Nat) ∧
      CommitInv (handle exampleServer
        (Request.startView { View := 4, Log := [none, some 7, some 8] })) :=
  ⟨by decide,
    C7_CommitInv_kept_by_long_enough_log ["s0", "s1", "s2"] 1 0 exampleServer
      (Request.startView { View := 4, Log := [none, some 7, some 8] }) (by decide)
      (by
        intro args hreq _
        cases hreq
        decide)⟩

/-- C8, as stated, fails: a fresh replica (reachable, commitIndex 0) holds the
nil sentinel at index 0; after StartView for view 1 with the log `[9]` the
entry at index 0 is the command 9. -/
theorem C8_StartView_overwrites_sentinel :
    (0 : Int) ≤ freshServer.commitIndex ∧
      entryAt freshServer.log 0 = some none ∧
      entryAt (handle freshServer
        (Request.startView { View := 1, Log := [some 9] })).log 0 = some (some 9) := by
  decide

/-- C8, amended: for every server state (so for every state reachable from
Make), every ViewChange request, every refused StartView request, and every
accepted StartView request whose log agrees with the local log at each index
`≤ commitIndex`, leave every log entry at an index `≤ commitIndex` the same;
the commitIndex itself is left unchanged by every request. -/
theorem C8_committed_entries_kept_by_agreeing_log {α : Type} (srv : PBServer α)
    (req : Request α)
    (hagree : ∀ args, req = Request.startView args → srv.currentView < args.View →
      ∀ i : Int, 0 ≤ i → i ≤ srv.commitIndex → entryAt args.Log i = entryAt srv.log i) :
    (handle srv req).commitIndex = srv.commitIndex ∧
      ∀ i : Int, 0 ≤ i → i ≤ srv.commitIndex →
        entryAt (handle srv req).log i = entryAt srv.log i := by
  refine ⟨handle_commitIndex srv req, ?_⟩
  intro i h0 hi
  cases req with
  | viewChange args =>
    simp only [handle]
    rw [ViewChange_log]
  | startView args =>
    by_cases h : srv.currentView < args.View
    · simp only [handle]
      rw [StartView_accept srv args h]
      exact hagree args rfl h i h0 hi
    · simp only [handle]
      rw [StartView_reject srv args (not_lt.mp h)]

/-- C8 amended, at a concrete input: a replica with the log `[nil, 7]` and
commitIndex 1 receives StartView for view 4 with the log `[nil, 7, 8]`. -/
theorem C8_committed_entries_kept_by_agreeing_log_witness :
    entryAt (handle exampleServer
        (Request.startView { View := 4, Log := [none, some 7, some 8] })).log 0 =
        entryAt exampleServer.log 0 ∧
      entryAt (handle exampleServer
        (Request.startView { View := 4, Log := [none, some 7, some 8] })).log 1 =
        entryAt exampleServer.log 1 :=
  have key := (C8_committed_entries_kept_by_agreeing_log exampleServer
    (Request.startView { View := 4, Log := [none, some 7, some 8] })
    (by
      intro args hreq _ i h0 hi
      cases hreq
      have h1 : i ≤ 1 := hi
      interval_cases i <;> decide)).2
  ⟨key 0 (by decide) (by decide), key 1 (by decide) (by decide)⟩

/-- C9 (code evaluated at a failing input): in a cluster of three peers the
quorum is 2; given two successful replies, `determineNewViewLog` still
returns ok = false. -/
theorem C9_determineNewViewLog_ok_false_at_quorum :
    quorum exampleServer.peers.length ≤ [freshReply, staleReply].length ∧
      freshReply.Success = true ∧ staleReply.Success = true ∧
      (determineNewViewLog exampleServer [freshReply, staleReply]).1 = false := by
  decide

/-! ## Lemmas on the Prepare handler -/

theorem Prepare_stale {α : Type} (srv : PBServer α) (args : PrepareArgs α)
    (h : args.View < srv.currentView) :
    Prepare srv args = (srv, { View := srv.currentView, Success := false }) := by
  simp [Prepare, h]

theorem Prepare_not_normal {α : Type} (srv : PBServer α) (args : PrepareArgs α)
    (hv : ¬ args.View < srv.currentView) (h : srv.status ≠ NORMAL) :
    Prepare srv args = (srv, { View := srv.currentView, Success := false }) := by
  simp [Prepare, hv, h]

/-- An ordering violation: the request is refused and the backup enters
RECOVERING; nothing else changes. -/
theorem Prepare_index_mismatch {α : Type} (srv : PBServer α) (args : PrepareArgs α)
    (hv : ¬ args.View < srv.currentView) (hs : srv.status = NORMAL)
    (h : args.Index ≠ (srv.log.length : Int)) :
    Prepare srv args =
      ({ srv with status := RECOVERING }, { View := srv.currentView, Success := false }) := by
  simp [Prepare, hv, hs, h]

theorem Prepare_accept {α : Type} (srv : PBServer α) (args : PrepareArgs α)
    (hv : ¬ args.View < srv.currentView) (hs : srv.status = NORMAL)
    (h : args.Index = (srv.log.length : Int)) :
    Prepare srv args =
      ({ srv with
          log := srv.log ++ [args.Entry],
          commitIndex := max srv.commitIndex
            (min args.PrimaryCommit (((srv.log ++ [args.Entry]).length : Int) - 1)) },
        { View := srv.currentView, Success := true }) := by
  simp [Prepare, hv, hs, h]

/-- The commitIndex of a backup is never lowered by a Prepare request. -/
theorem Prepare_commitIndex_mono {α : Type} (srv : PBServer α) (args : PrepareArgs α) :
    srv.commitIndex ≤ (Prepare srv args).1.commitIndex := by
  by_cases hv : args.View < srv.currentView
  · rw [Prepare_stale srv args hv]
  · by_cases hs : srv.status = NORMAL
    · by_cases h : args.Index = (srv.log.length : Int)
      · rw [Prepare_accept srv args hv hs h]
        exact le_max_left _ _
      · rw [Prepare_index_mismatch srv args hv hs h]
    · rw [Prepare_not_normal srv args hv hs]

/-- The scenario of the spec: a backup that holds only the sentinel receives a
Prepare for index 5; it refuses and enters RECOVERING, with log and
commitIndex as before. -/
theorem Prepare_late_backup_enters_RECOVERING :
    Prepare freshServer { View := 0, PrimaryCommit := 4, Index := 5, Entry := some 3 } =
      ({ peers := ["s0", "s1", "s2"], me := 1, currentView := 0, status := RECOVERING,
         lastNormalView := 0, log := [none], commitIndex := 0 },
        { View := 0, Success := false }) := by
  decide

/-- C10, as stated, fails: a NORMAL backup in view 2 with the log `[nil, 7]`
and commitIndex 1 accepts a Prepare for view 2 and index 2 that carries
PrimaryCommit 0. The claim sets commitIndex to `min(0, len(log)-1) = 0`; the
handler, whose commitIndex never decreases, leaves it at 1. -/
theorem C10_Prepare_does_not_lower_commitIndex :
    (Prepare normalServer
        { View := 2, PrimaryCommit := 0, Index := 2, Entry := some 8 }).2.Success = true ∧
      (Prepare normalServer
        { View := 2, PrimaryCommit := 0, Index := 2, Entry := some 8 }).1.log =
        [none, some 7, some 8] ∧
      (Prepare normalServer
        { View := 2, PrimaryCommit := 0, Index := 2, Entry := some 8 }).1.commitIndex = 1 ∧
      min (0 : Int) (((Prepare normalServer
        { View := 2, PrimaryCommit := 0, Index := 2, Entry := some 8 }).1.log.length : Int) - 1)
        = 0 := by
  decide

/-- C10, amended: the backup-side Prepare handler rejects a request
(Success = false, reply.View = own currentView, log and commitIndex unchanged)
if and only if `args.View < currentView`, or status is not NORMAL, or
`args.Index` is not the current log length. Otherwise the entry is appended
and sits at `args.Index`, the reply is Success = true with the own view, and
commitIndex advances to `min(args.PrimaryCommit, len(log)-1)` for the new log
when that is not below the current commitIndex, and is left unchanged when
it is. -/
theorem C10_Prepare_rejects_iff_and_advances_commit {α : Type} (srv : PBServer α)
    (args : PrepareArgs α) :
    ((Prepare srv args).2.Success = false ↔
        (args.View < srv.currentView ∨ srv.status ≠ NORMAL ∨
          args.Index ≠ (srv.log.length : Int))) ∧
      ((Prepare srv args).2.Success = false →
        (Prepare srv args).2.View = srv.currentView ∧
        (Prepare srv args).1.log = srv.log ∧
        (Prepare srv args).1.commitIndex = srv.commitIndex) ∧
      ((Prepare srv args).2.Success ≠ false →
        (Prepare srv args).2 = { View := srv.currentView, Success := true } ∧
        (Prepare srv args).1.log = srv.log ++ [args.Entry] ∧
        entryAt (Prepare srv args).1.log args.Index = some args.Entry ∧
        (srv.commitIndex ≤
            min args.PrimaryCommit (((Prepare srv args).1.log.length : Int) - 1) →
          (Prepare srv args).1.commitIndex =
            min args.PrimaryCommit (((Prepare srv args).1.log.length : Int) - 1)) ∧
        (min args.PrimaryCommit (((Prepare srv args).1.log.length : Int) - 1) <
            srv.commitIndex →
          (Prepare srv args).1.commitIndex = srv.commitIndex)) := by
  by_cases hv : args.View < srv.currentView
  · rw [Prepare_stale srv args hv]
    simp [hv]
  · by_cases hs : srv.status = NORMAL
    · by_cases h : args.Index = (srv.log.length : Int)
      · rw [Prepare_accept srv args hv hs h]
        refine ⟨by simp [hv, hs, h], by simp, ?_⟩
        intro _
        refine ⟨rfl, rfl, ?_, ?_, ?_⟩
        · simp [entryAt, h]
        · intro hle
          exact max_eq_right hle
        · intro hlt
          exact max_eq_left (le_of_lt hlt)
      · rw [Prepare_index_mismatch srv args hv hs h]
        simp [h]
    · rw [Prepare_not_normal srv args hv hs]
      simp [hs]

/-! ## Lemmas on runs and on the queries -/

theorem run_commitIndex {α : Type} (srv : PBServer α) (reqs : List (Request α)) :
    (run srv reqs).commitIndex = srv.commitIndex := by
  induction reqs generalizing srv with
  | nil => rfl
  | cons req reqs ih => rw [run_cons, ih, handle_commitIndex]

theorem GetPrimary_of_ne_zero (view nservers : Int) (hn : nservers ≠ 0) :
    GetPrimary view nservers = some (Int.tmod view nservers) := by
  simp [GetPrimary, hn]

theorem entryAt_of_lt {α : Type} (log : List (Option α)) (index : Int)
    (h0 : 0 ≤ index) (hlt : index < (log.length : Int)) :
    ∃ command, log[index.toNat]? = some command ∧ entryAt log index = some command := by
  have hnat : index.toNat < log.length := by omega
  refine ⟨log[index.toNat], List.getElem?_eq_getElem hnat, ?_⟩
  simp [entryAt, not_lt.mpr h0, List.getElem?_eq_getElem hnat]

/-- With an index that is not negative, `GetEntryAtIndex` takes no out-of-range
access: it returns. -/
theorem GetEntryAtIndex_returns_of_nonneg {α : Type} (srv : PBServer α) (index : Int)
    (h0 : 0 ≤ index) : ∃ r, GetEntryAtIndex srv index = some r := by
  by_cases hlt : (srv.log.length : Int) > index
  · obtain ⟨command, _, hc⟩ := entryAt_of_lt srv.log index h0 hlt
    exact ⟨(srv, true, command), by simp [GetEntryAtIndex, hlt, hc]⟩
  · exact ⟨(srv, false, none), by simp [GetEntryAtIndex, hlt]⟩

/-- With a negative index the guard `len(srv.log) > index` holds and the access
`srv.log[index]` is out of range. -/
theorem GetEntryAtIndex_negative_index {α : Type} (srv : PBServer α) (index : Int)
    (hneg : index < 0) : GetEntryAtIndex srv index = none := by
  have hlt : (srv.log.length : Int) > index := by omega
  simp [GetEntryAtIndex, hlt, entryAt, hneg]

/-- The two properties of the view fields that the handlers keep. -/
theorem handle_keeps_view_order {α : Type} (srv : PBServer α) (req : Request α)
    (hle : srv.lastNormalView ≤ srv.currentView)
    (hnormal : srv.status = NORMAL → srv.lastNormalView = srv.currentView) :
    (handle srv req).lastNormalView ≤ (handle srv req).currentView ∧
      ((handle srv req).status = NORMAL →
        (handle srv req).lastNormalView = (handle srv req).currentView) := by
  cases req with
  | viewChange args =>
    simp only [handle]
    by_cases h : args.View > srv.currentView
    · rw [ViewChange_accept srv args _ h]
      refine ⟨le_trans hle (le_of_lt h), ?_⟩
      intro hst
      have hne : VIEWCHANGE ≠ NORMAL := by decide
      exact absurd hst hne
    · rw [ViewChange_reject srv args _ (not_lt.mp h)]
      exact ⟨hle, hnormal⟩
  | startView args =>
    simp only [handle]
    by_cases h : srv.currentView < args.View
    · rw [StartView_accept srv args h]
      exact ⟨le_refl _, fun _ => rfl⟩
    · rw [StartView_reject srv args (not_lt.mp h)]
      exact ⟨hle, hnormal⟩

theorem run_keeps_view_order {α : Type} (srv : PBServer α) (reqs : List (Request α))
    (hle : srv.lastNormalView ≤ srv.currentView)
    (hnormal : srv.status = NORMAL → srv.lastNormalView = srv.currentView) :
    (run srv reqs).lastNormalView ≤ (run srv reqs).currentView ∧
      ((run srv reqs).status = NORMAL →
        (run srv reqs).lastNormalView = (run srv reqs).currentView) := by
  induction reqs generalizing srv with
  | nil => exact ⟨hle, hnormal⟩
  | cons req reqs ih =>
    rw [run_cons]
    exact ih (handle srv req) (handle_keeps_view_order srv req hle hnormal).1
      (handle_keeps_view_order srv req hle hnormal).2

/-! ## Claims on commit monotonicity, the queries and reachable states -/

/-- C11: commit monotonicity. For every server state and every finite
sequence of ViewChange and StartView requests, the commitIndex after each
request of the sequence is at least the commitIndex before that request (the
two handlers leave it as it is), and so is the commitIndex at the end. -/
theorem C11_commitIndex_never_decreases {α : Type} (srv : PBServer α)
    (before : List (Request α)) (req : Request α) (after : List (Request α)) :
    (run srv before).commitIndex ≤ (run srv (before ++ [req])).commitIndex ∧
      srv.commitIndex ≤ (run srv (before ++ req :: after)).commitIndex := by
  rw [run_commitIndex, run_commitIndex, run_commitIndex]
  exact ⟨le_refl _, le_refl _⟩

/-- C12, as stated, fails: with view the largest `int` and 3 servers, the
Go sum `view + nservers` wraps around to a negative value, and
`GetPrimary(view + nservers, 3)` is 0 while `GetPrimary(view, 3)` is 1. -/
theorem C12_GetPrimary_period_fails_at_MaxInt :
    (0 : Int) ≤ MaxInt ∧ (0 : Int) < 3 ∧
      addInt MaxInt 3 = -(2 ^ 63) + 2 ∧
      GetPrimary (addInt MaxInt 3) 3 = some 0 ∧
      GetPrimary MaxInt 3 = some 1 := by
  decide

/-- C12, amended: for every view `≥ 0` and every nservers `> 0`, `GetPrimary`
returns `view mod nservers`; `GetPrimary(1, 3) = 1`; and when the sum
`view + nservers` does not exceed the largest `int`, adding nservers to the
view does not change the primary. -/
theorem C12_GetPrimary_is_view_mod_in_range (view nservers : Int) (hv : 0 ≤ view)
    (hn : 0 < nservers) (hsum : view + nservers ≤ MaxInt) :
    GetPrimary view nservers = some (view % nservers) ∧
      GetPrimary 1 3 = some 1 ∧
      GetPrimary (addInt view nservers) nservers = GetPrimary view nservers := by
  have hne : nservers ≠ 0 := ne_of_gt hn
  have hadd : addInt view nservers = view + nservers := by
    simp only [addInt, MaxInt] at *
    omega
  refine ⟨?_, by decide, ?_⟩
  · rw [GetPrimary_of_ne_zero view nservers hne,
      Int.tmod_eq_emod hv (le_of_lt hn)]
  · rw [hadd, GetPrimary_of_ne_zero view nservers hne,
      GetPrimary_of_ne_zero (view + nservers) nservers hne,
      Int.tmod_eq_emod hv (le_of_lt hn),
      Int.tmod_eq_emod (add_nonneg hv (le_of_lt hn)) (le_of_lt hn),
      Int.add_emod_self]

/-- C12 amended, at a concrete input: view 7 in a cluster of 3 servers. -/
theorem C12_GetPrimary_is_view_mod_in_range_witness :
    (7 : Int) + 3 ≤ MaxInt ∧
      GetPrimary 7 3 = some (7 % 3) ∧
      GetPrimary 1 3 = some 1 ∧
      GetPrimary (addInt 7 3) 3 = GetPrimary 7 3 :=
  ⟨by decide,
    C12_GetPrimary_is_view_mod_in_range 7 3 (by decide) (by decide) (by decide)⟩

/-- C13: the state produced by Make has currentView and lastNormalView equal
to startingView, status NORMAL, commitIndex 0 and a log of length exactly 1
whose only entry is the nil sentinel. -/
theorem C13_Make_initial_state {α : Type} (peers : List String) (me startingView : Int) :
    (Make peers me startingView : PBServer α).currentView = startingView ∧
      (Make peers me startingView : PBServer α).lastNormalView = startingView ∧
      (Make peers me startingView : PBServer α).status = NORMAL ∧
      (Make peers me startingView : PBServer α).commitIndex = 0 ∧
      (Make peers me startingView : PBServer α).log.length = 1 ∧
      (Make peers me startingView : PBServer α).log = [none] ∧
      (Make peers me startingView : PBServer α).peers = peers ∧
      (Make peers me startingView : PBServer α).me = me :=
  ⟨rfl, rfl, rfl, rfl, rfl, rfl, rfl, rfl⟩

/-- C14: for every index with `0 ≤ index < len(log)`, `GetEntryAtIndex` returns
ok = true and the command stored at `log[index]`; for every index
`≥ len(log)` it returns ok = false and a nil command; in both cases the server
state is as before. -/
theorem C14_GetEntryAtIndex_result {α : Type} (srv : PBServer α) (index : Int)
    (h0 : 0 ≤ index) :
    (index < (srv.log.length : Int) →
        ∃ command, srv.log[index.toNat]? = some command ∧
          GetEntryAtIndex srv index = some (srv, true, command)) ∧
      ((srv.log.length : Int) ≤ index →
        GetEntryAtIndex srv index = some (srv, false, none)) := by
  constructor
  · intro hlt
    obtain ⟨command, hget, hc⟩ := entryAt_of_lt srv.log index h0 hlt
    exact ⟨command, hget, by simp [GetEntryAtIndex, hlt, hc]⟩
  · intro hge
    simp [GetEntryAtIndex, not_lt.mpr hge]

/-- C14 at concrete inputs: index 1 and index 5 on a log of length 2. -/
theorem C14_GetEntryAtIndex_result_witness :
    GetEntryAtIndex exampleServer 1 = some (exampleServer, true, some 7) ∧
      GetEntryAtIndex exampleServer 5 = some (exampleServer, false, none) := by
  obtain ⟨command, hget, hres⟩ :=
    (C14_GetEntryAtIndex_result exampleServer 1 (by decide)).1 (by decide)
  have hc : command = some 7 := by
    have h7 : exampleServer.log[(1 : Int).toNat]? = some (some 7) := by decide
    rw [h7] at hget
    exact (Option.some.inj hget).symm
  rw [hc] at hres
  exact ⟨hres, (C14_GetEntryAtIndex_result exampleServer 5 (by decide)).2 (by decide)⟩

/-- C15: `IsCommitted(index)` returns true if and only if
`index ≤ commitIndex`, and leaves the server state as it is. -/
theorem C15_IsCommitted_iff {α : Type} (srv : PBServer α) (index : Int) :
    ((IsCommitted srv index).2 = true ↔ index ≤ srv.commitIndex) ∧
      (IsCommitted srv index).1 = srv := by
  by_cases h : srv.commitIndex ≥ index
  · simp [IsCommitted, h]
  · simp [IsCommitted, h]

/-- C16: the newViewLog returned by `determineNewViewLog` is the own log of
the server or the Log field of one of the replies; with an empty list it is
the own log; and the call leaves the server state as it is. -/
theorem C16_newViewLog_is_own_or_reply_log {α : Type} (srv : PBServer α)
    (successReplies : List (ViewChangeReply α)) :
    ((determineNewViewLog.call srv successReplies).2.2 = srv.log ∨
        ∃ r ∈ successReplies, r.Log = (determineNewViewLog.call srv successReplies).2.2) ∧
      (determineNewViewLog.call srv []).2.2 = srv.log ∧
      (determineNewViewLog.call srv successReplies).1 = srv := by
  refine ⟨?_, rfl, rfl⟩
  obtain ⟨c, hmem, hlog, _⟩ := determineNewViewLog_selects_least srv successReplies
  simp only [determineNewViewLog.call]
  rcases List.mem_cons.mp hmem with hself | hreply
  · left
    rw [← hlog, hself]
  · right
    obtain ⟨r, hr, hrc⟩ := List.mem_map.mp hreply
    refine ⟨r, hr, ?_⟩
    rw [← hlog, ← hrc]

/-- C17: in every state reached from Make by a finite sequence of ViewChange
and StartView requests, `lastNormalView ≤ currentView`, and
`lastNormalView = currentView` whenever the status is NORMAL. -/
theorem C17_lastNormalView_le_currentView {α : Type} (peers : List String)
    (me startingView : Int) (reqs : List (Request α)) :
    (run (Make peers me startingView) reqs).lastNormalView ≤
        (run (Make peers me startingView) reqs).currentView ∧
      ((run (Make peers me startingView) reqs).status = NORMAL →
        (run (Make peers me startingView) reqs).lastNormalView =
          (run (Make peers me startingView) reqs).currentView) :=
  run_keeps_view_order (Make peers me startingView) reqs (le_refl _) (fun _ => rfl)

/-- C18, as stated, fails: `GetPrimary(-1, 3)` is `-1`, which is no index of a
peer. -/
theorem C18_GetPrimary_negative_view :
    GetPrimary (-1) 3 = some (-1) ∧
      ¬ ∃ p, GetPrimary (-1) 3 = some p ∧ 0 ≤ p ∧ p < 3 := by
  have h : GetPrimary (-1) 3 = some (-1) := by decide
  refine ⟨h, ?_⟩
  rintro ⟨p, hp, h0, _⟩
  rw [h] at hp
  have hp1 : (-1 : Int) = p := Option.some.inj hp
  omega

/-- C18, amended: for every view `≥ 0` and every nservers `> 0`,
`GetPrimary(view, nservers)` is a valid peer index, `0 ≤ p < nservers`. -/
theorem C18_GetPrimary_valid_index (view nservers : Int) (hv : 0 ≤ view)
    (hn : 0 < nservers) :
    ∃ p, GetPrimary view nservers = some p ∧ 0 ≤ p ∧ p < nservers :=
  ⟨Int.tmod view nservers, GetPrimary_of_ne_zero view nservers (ne_of_gt hn),
    Int.tmod_nonneg nservers hv, Int.tmod_lt_of_pos view hn⟩

/-- C18 amended, at a concrete input: view 7 in a cluster of 3 servers. -/
theorem C18_GetPrimary_valid_index_witness :
    ∃ p, GetPrimary 7 3 = some p ∧ 0 ≤ p ∧ p < 3 :=
  C18_GetPrimary_valid_index 7 3 (by decide) (by decide)

/-- C19 (code evaluated at a failing input): with index `-1` on a log of
length 2 the guard `len(srv.log) > index` holds, and the access
`srv.log[-1]` is out of range: there is no result. -/
theorem C19_GetEntryAtIndex_negative_index_fails :
    (exampleServer.log.length : Int) > -1 ∧
      entryAt exampleServer.log (-1) = none ∧
      GetEntryAtIndex exampleServer (-1) = none := by
  decide

end simplepb

namespace registration

/-! ## Lemmas on the ledger -/

theorem LogIn_no_record (lul : LocalUserLedger) (uname pwd : String) (env : TokenSource)
    (h : lul.userID uname = none) :
    LogIn lul uname pwd env = some (lul, some ("No record of " ++ uname ++ " exists"), "") := by
  simp [LogIn, h]

theorem LogIn_bad_password (lul : LocalUserLedger) (uname pwd : String) (env : TokenSource)
    (id : Int) (h : lul.userID uname = some id) (hpwd : (lul.pwdMap id).getD "" ≠ pwd) :
    LogIn lul uname pwd env = some (lul, some ("Bad password for " ++ uname), "") := by
  simp [LogIn, h, hpwd]

theorem LogIn_good_password (lul : LocalUserLedger) (uname pwd : String) (env : TokenSource)
    (id : Int) (h : lul.userID uname = some id) (hpwd : (lul.pwdMap id).getD "" = pwd)
    (hrand : env.randErr = false) :
    ∃ lul1 token, LogIn lul uname pwd env = some (lul1, none, token) ∧
      lul1.tokenMap id = some { token := token, creationDate := env.now } := by
  refine ⟨{ lul with
      tokenMap := mapSet lul.tokenMap id
        { token := EncodeToString ((List.range 256).map (fun i => env.randByte i % 256)),
          creationDate := env.now } },
    EncodeToString ((List.range 256).map (fun i => env.randByte i % 256)), ?_, ?_⟩
  · simp [LogIn, h, hpwd, allocateNewToken, hrand]
  · simp [mapSet]

theorem AddNewUser_userID (lul : LocalUserLedger) (name pwd : String) :
    (AddNewUser lul name pwd).1.userID name = some lul.uidCounter := by
  simp [AddNewUser, mapSet]

theorem AddNewUser_pwdMap (lul : LocalUserLedger) (name pwd : String) :
    (AddNewUser lul name pwd).1.pwdMap lul.uidCounter = some pwd := by
  simp [AddNewUser, mapSet]

/-! ## Claim on LogIn -/

/-- C20: when `rand.Read` does not fail, `LogIn(uname, pwd)` returns, and it
returns an error if and only if uname has no entry in the ledger or the
password stored for that user differs from pwd; with an error the token is
empty and the ledger, so its token map, is as before. Right after
`AddNewUser(name, pwd1)`, `LogIn(name, pwd1)` returns no error and
`LogIn(name, pwd2)` returns an error for every pwd2 different from pwd1. -/
theorem C20_LogIn_error_iff (lul : LocalUserLedger) (uname pwd name pwd1 pwd2 : String)
    (env : TokenSource) (hrand : env.randErr = false) (hne : pwd2 ≠ pwd1) :
    (∃ r, LogIn lul uname pwd env = some r ∧
        (r.2.1 ≠ none ↔ (lul.userID uname = none ∨ BadPassword lul uname pwd)) ∧
        (r.2.1 ≠ none → r.2.2 = "" ∧ r.1.tokenMap = lul.tokenMap ∧ r.1 = lul)) ∧
      (∃ lul1 token,
        LogIn (AddNewUser lul name pwd1).1 name pwd1 env = some (lul1, none, token)) ∧
      (∃ err, LogIn (AddNewUser lul name pwd1).1 name pwd2 env =
        some ((AddNewUser lul name pwd1).1, some err, "")) := by
  refine ⟨?_, ?_, ?_⟩
  · cases h : lul.userID uname with
    | none =>
      refine ⟨_, LogIn_no_record lul uname pwd env h, ?_, ?_⟩
      · simp
      · intro _
        exact ⟨rfl, rfl, rfl⟩
    | some id =>
      by_cases hpwd : (lul.pwdMap id).getD "" ≠ pwd
      · refine ⟨_, LogIn_bad_password lul uname pwd env id h hpwd, ?_, ?_⟩
        · have hbad : BadPassword lul uname pwd := ⟨id, h, hpwd⟩
          simp [hbad]
        · intro _
          exact ⟨rfl, rfl, rfl⟩
      · have hpwd1 : (lul.pwdMap id).getD "" = pwd := not_not.mp hpwd
        obtain ⟨lul1, token, hlog, _⟩ :=
          LogIn_good_password lul uname pwd env id h hpwd1 hrand
        refine ⟨_, hlog, ?_, ?_⟩
        · have hgood : ¬ BadPassword lul uname pwd := by
            rintro ⟨id1, hid1, hbad⟩
            rw [h] at hid1
            cases hid1
            exact hbad hpwd1
          simp [hgood]
        · intro hcontra
          exact absurd rfl hcontra
  · obtain ⟨lul1, token, hlog, _⟩ :=
      LogIn_good_password (AddNewUser lul name pwd1).1 name pwd1 env lul.uidCounter
        (AddNewUser_userID lul name pwd1)
        (by rw [AddNewUser_pwdMap]; rfl) hrand
    exact ⟨lul1, token, hlog⟩
  · exact ⟨_, LogIn_bad_password (AddNewUser lul name pwd1).1 name pwd2 env lul.uidCounter
      (AddNewUser_userID lul name pwd1)
      (by
        rw [AddNewUser_pwdMap]
        exact fun h => hne h.symm)⟩

/-- C20 at a concrete input: on a new ledger, "bob" has no record; after
adding "alice" with the password "secret", her login with "secret" returns no
error and her login with "guess" returns an error. -/
theorem C20_LogIn_error_iff_witness :
    countingSource.randErr = false ∧ "guess" ≠ "secret" ∧
      (∃ lul1 token,
        LogIn (AddNewUser NewLocalLedger "alice" "secret").1 "alice" "secret" countingSource =
          some (lul1, none, token)) ∧
      (∃ err, LogIn (AddNewUser NewLocalLedger "alice" "secret").1 "alice" "guess"
          countingSource =
        some ((AddNewUser NewLocalLedger "alice" "secret").1, some err, "")) :=
  ⟨rfl, by decide,
    (C20_LogIn_error_iff NewLocalLedger "bob" "x" "alice" "secret" "guess" countingSource
      rfl (by decide)).2⟩

end registration
